import Mathlib

/-
Verification development for the ChatBot tool-augmented completion core:
the tool resolver with fuzzy fallback (app/services/intelligence.py,
app/services/chat_service.py), the per-call executor and its persisted
execution records, the bounded self-correction loop, the rate/quota
governor (app/middleware/rate_limit.py) and the MCP catalog cache
(app/services/mcp_orchestrator.py), embedded shallowly as executable
Lean definitions.
-/

namespace ChatBot

/-- JSON scalar values, the shape json.loads yields for tool-call argument
    fields. -/
inductive JVal where
  | jnull : JVal
  | jbool (b : Bool) : JVal
  | jnum (n : Int) : JVal
  | jstr (s : String) : JVal
  deriving DecidableEq

/-- A parsed JSON object: the top-level dict json.loads yields for tool
    arguments. -/
abbrev ArgObj := List (String × JVal)

/-- The raw argument payload attached to a tool call, viewed through
    json.loads: either it parses to an object or json.loads raises
    (syntactically invalid JSON text). -/
inductive ArgPayload where
  | valid (obj : ArgObj) : ArgPayload
  | invalid (raw : String) : ArgPayload
  deriving DecidableEq

/-- json.loads on the raw payload (chat_service.py line 41): some means
    parsed, none means the call raises. -/
def parseArgs : ArgPayload → Option ArgObj
  | .valid o => some o
  | .invalid _ => none

/-- JSON scalar types, for declared property types in an input schema. -/
inductive JTy where
  | tnull : JTy
  | tbool : JTy
  | tnum : JTy
  | tstr : JTy
  deriving DecidableEq

def JVal.ty : JVal → JTy
  | .jnull => .tnull
  | .jbool _ => .tbool
  | .jnum _ => .tnum
  | .jstr _ => .tstr

/-- A tool input contract: required property names and declared property
    types, the part of a JSON schema the tools under app/mcp/tools declare. -/
structure JSchema where
  required : List String
  properties : List (String × JTy)
  deriving DecidableEq

def lookupField (o : ArgObj) (k : String) : Option JVal :=
  (o.find? (fun p => p.1 == k)).map (fun p => p.2)

/-- Models jsonschema.validate on an object schema: the first violation
    message, or none when the instance conforms.  Required-property presence
    is checked, then declared property types. -/
def validateSchema (s : JSchema) (o : ArgObj) : Option String :=
  match s.required.find? (fun k => (lookupField o k).isNone) with
  | some k => some (k ++ " is a required property")
  | none =>
    match s.properties.find? (fun p =>
        match lookupField o p.1 with
        | some v => v.ty != p.2
        | none => false) with
    | some p => some (p.1 ++ " is not of the declared type")
    | none => none

/-! ## difflib model

IntelligenceService.find_fuzzy_match delegates to difflib.get_close_matches,
so the similarity score is SequenceMatcher.ratio, i.e. the Ratcliff-Obershelp
matched-character count.  Tool names are far shorter than 200 characters, so
the autojunk heuristic never marks junk and the plain recursion applies.
The float cutoff 0.7 is compared exactly as the rational 7/10 by
cross-multiplication over Nat. -/

/-- Length of the common prefix run of two character lists. -/
def commonRun : List Char → List Char → Nat
  | a :: as, b :: bs => if a = b then commonRun as bs + 1 else 0
  | _, _ => 0

/-- All candidate matching blocks: for every start pair, the run length
    there, listed in increasing start-in-a then start-in-b order. -/
def allBlocks (a b : List Char) : List (Nat × Nat × Nat) :=
  (List.range a.length).flatMap (fun i =>
    (List.range b.length).map (fun j => (i, j, commonRun (a.drop i) (b.drop j))))

/-- SequenceMatcher.find_longest_match over whole sequences with no junk:
    the longest matching block, preferring the earliest start in a and then
    the earliest start in b.  Scanning blocks in increasing order and keeping
    the first strict maximum realizes exactly that preference. -/
def findLongestMatch (a b : List Char) : Nat × Nat × Nat :=
  (allBlocks a b).foldl (fun best c => if best.2.2 < c.2.2 then c else best) (0, 0, 0)

/-- Total matched size over SequenceMatcher.get_matching_blocks: the
    Ratcliff-Obershelp recursion takes the longest block and recurses on the
    parts left and right of it.  The fuel argument only serves termination;
    every recursive call strictly shrinks the combined length, so fuel equal
    to the combined length always suffices. -/
def matchTotal : Nat → List Char → List Char → Nat
  | 0, _, _ => 0
  | fuel + 1, a, b =>
    let blk := findLongestMatch a b
    if blk.2.2 = 0 then 0
    else
      blk.2.2 + matchTotal fuel (a.take blk.1) (b.take blk.2.1) +
        matchTotal fuel (a.drop (blk.1 + blk.2.2)) (b.drop (blk.2.1 + blk.2.2))

/-- Matched-character total of SequenceMatcher with seq1 x and seq2 word, the
    orientation difflib.get_close_matches uses. -/
def simM (x word : String) : Nat :=
  matchTotal (x.length + word.length) x.data word.data

/-- Numerator of ratio x word, which is 2*M / (len x + len word); two empty
    strings have ratio 1, following difflib. -/
def ratioNum (x word : String) : Nat :=
  if x.length + word.length = 0 then 1 else 2 * simM x word

/-- Denominator of ratio x word. -/
def ratioDen (x word : String) : Nat :=
  if x.length + word.length = 0 then 1 else x.length + word.length

/-- ratio x word is at least the cutoff 0.7, compared exactly.  difflib also
    pre-filters on real_quick_ratio and quick_ratio, but both are upper bounds
    of ratio, so filtering on ratio alone selects the same set. -/
def passes (x word : String) : Bool :=
  7 * ratioDen x word ≤ 10 * ratioNum x word

/-- The pair (ratio b, b) is strictly below (ratio x, x) in the tuple order
    heapq.nlargest compares; ratios compared by cross-multiplication. -/
def ratioPairLt (b x word : String) : Bool :=
  decide (ratioNum b word * ratioDen x word < ratioNum x word * ratioDen b word ∨
    (ratioNum b word * ratioDen x word = ratioNum x word * ratioDen b word ∧ b < x))

/-- difflib.get_close_matches with n 1 and cutoff 0.7: keep the possibilities
    whose ratio clears the cutoff and return the largest by the tuple order;
    on a full tie heapq.nlargest keeps the earlier element.  none when nothing
    clears the cutoff. -/
def getCloseMatch1 (word : String) (possibilities : List String) : Option String :=
  (possibilities.filter (fun x => passes x word)).foldl
    (fun best x =>
      match best with
      | none => some x
      | some b => if ratioPairLt b x word then some x else some b)
    none

/-- IntelligenceService.find_fuzzy_match (intelligence.py lines 30 to 36) at
    its default threshold 0.7. -/
def find_fuzzy_match (tool_name : String) (available_tools : List String) : Option String :=
  getCloseMatch1 tool_name available_tools

/-! ## Tool catalog, execution environment and the per-call executor -/

/-- A tool registered in the in-process ToolRegistry: name and declared
    input schema (app/mcp/tools/base.py). -/
structure LocalTool where
  name : String
  input_schema : JSchema
  deriving DecidableEq

/-- One entry of mcp_tools as built by MCPClient.list_tools (client.py lines
    34 to 45): the advertised tool dict plus the originating server name;
    chat_service.py line 72 reads server_name back with a get and an
    "unknown" default, hence the Option. -/
structure MCPToolEntry where
  name : String
  input_schema : Option JSchema
  server_name : Option String
  deriving DecidableEq

/-- One tool call issued by a model turn: call id, requested tool name and
    the raw argument payload. -/
structure ToolCallRequest where
  id : String
  name : String
  arguments : ArgPayload
  deriving DecidableEq

/-- Outcome of one invocation of an external capability (a local tool's
    execute, or a remote call through MCPClient.call_tool), indexed by the
    attempt number; the code under test performs exactly one attempt, index 0.
    timeoutRaised stands for asyncio.TimeoutError escaping
    MCPClient.call_tool; str of that exception is the empty string. -/
inductive ExecOutcome where
  | ok (v : JVal) : ExecOutcome
  | raised (msg : String) : ExecOutcome
  | timeoutRaised : ExecOutcome
  deriving DecidableEq

/-- The external execution capabilities the executor dispatches to. -/
structure ExecEnv where
  localExec : String → ArgObj → Nat → ExecOutcome
  mcpExec : String → String → ArgObj → Nat → ExecOutcome

/-- The status label MCPClient.call_tool attaches to its metrics counter
    (client.py lines 51 to 75); the exception itself is re-raised either
    way, so this label is the only place the timeout kind is kept. -/
def callToolMetricsStatus : ExecOutcome → String
  | .ok _ => "success"
  | .timeoutRaised => "timeout"
  | .raised _ => "error"

/-- Result of step 1 of ChatService._process_tool_call: the resolved name,
    the local and remote catalog hits, and whether a fuzzy substitution
    happened (the logged name correction). -/
structure Resolution where
  resolved_name : String
  localTool : Option LocalTool
  mcpTool : Option MCPToolEntry
  corrected : Bool
  deriving DecidableEq

/-- Step 1 of ChatService._process_tool_call (chat_service.py lines 51 to
    64): exact lookup in the local registry and in the MCP catalog; only when
    both miss, fuzzy matching over the combined name list. -/
def resolveToolName (localTools : List LocalTool) (mcpTools : List MCPToolEntry)
    (original : String) : Resolution :=
  let localTool0 := localTools.find? (fun t => t.name == original)
  let mcpTool0 := mcpTools.find? (fun t => t.name == original)
  if localTool0.isNone && mcpTool0.isNone then
    match find_fuzzy_match original
        (localTools.map (fun t => t.name) ++ mcpTools.map (fun t => t.name)) with
    | some fuzzy =>
      ⟨fuzzy, localTools.find? (fun t => t.name == fuzzy),
        mcpTools.find? (fun t => t.name == fuzzy), true⟩
    | none => ⟨original, localTool0, mcpTool0, false⟩
  else ⟨original, localTool0, mcpTool0, false⟩

/-- The value bound to result_content on exit: the capability's result on
    success, or the error object built on every failure path. -/
inductive ToolResultContent where
  | value (v : JVal) : ToolResultContent
  | errorObj (msg : String) : ToolResultContent
  deriving DecidableEq

/-- The ToolExecution row persisted by _process_tool_call (chat_service.py
    lines 107 to 121).  The random execution uuid and the wall-clock fields
    (duration_ms, timestamps) are external randomness and clock reads and are
    not modelled. -/
structure ToolExecutionRecord where
  conversation_id : String
  tool_name : String
  server_name : String
  arguments : ArgObj
  result : ToolResultContent
  status : String
  error_message : Option String
  deriving DecidableEq

/-- The dict _process_tool_call returns to the gather (chat_service.py lines
    123 to 129); content is json.dumps of result_content, kept structured
    here. -/
structure ToolMessage where
  role : String
  tool_call_id : String
  name : String
  content : ToolResultContent
  status : String
  deriving DecidableEq

/-- Step 2 of _process_tool_call: the schema used for validation, from the
    local hit first, else from the MCP entry. -/
def schemaOf (r : Resolution) : Option JSchema :=
  match r.localTool with
  | some t => some t.input_schema
  | none =>
    match r.mcpTool with
    | some t => t.input_schema
    | none => none

/-- The server_name variable of _process_tool_call: stays "local" unless the
    call resolves to an MCP entry. -/
def serverNameOf (r : Resolution) : String :=
  match r.localTool with
  | some _ => "local"
  | none =>
    match r.mcpTool with
    | some t => t.server_name.getD "unknown"
    | none => "local"

/-- Steps 3 and 4 of _process_tool_call (chat_service.py lines 74 to 102):
    strict schema validation, then execution of the resolved capability with
    exactly one attempt (index 0); returns the triple status, error_message,
    result_content.  String quoting inside the two fixed error texts is
    simplified; the texts are otherwise the source's. -/
def execStep (env : ExecEnv) (r : Resolution) (original : String)
    (tool_args : ArgObj) : String × Option String × ToolResultContent :=
  match (schemaOf r).bind (fun s => validateSchema s tool_args) with
  | some ve =>
    ("error", some ("Schema validation failed: " ++ ve ++
        ". Please check parameter types and required fields."),
      .errorObj ("Schema validation failed: " ++ ve ++
        ". Please check parameter types and required fields."))
  | none =>
    match r.localTool with
    | some _ =>
      match env.localExec r.resolved_name tool_args 0 with
      | .ok v => ("success", none, .value v)
      | .raised m => ("error", some m, .errorObj m)
      | .timeoutRaised => ("error", some "", .errorObj "")
    | none =>
      match r.mcpTool with
      | some _ =>
        match env.mcpExec (serverNameOf r) r.resolved_name tool_args 0 with
        | .ok v => ("success", none, .value v)
        | .raised m => ("error", some m, .errorObj m)
        | .timeoutRaised => ("error", some "", .errorObj "")
      | none =>
        ("error", some ("Tool " ++ original ++ " not found."),
          .errorObj ("Tool " ++ original ++ " not found."))

/-- ChatService._process_tool_call (chat_service.py lines 33 to 129).
    Returns none when json.loads on the raw arguments raises: line 41 sits
    before the try block, so that exception escapes and no record is
    persisted.  Otherwise resolution, validation and execution run, and the
    persisted record plus the tool message handed back to the batch are
    returned. -/
def processToolCall (env : ExecEnv) (localTools : List LocalTool)
    (mcpTools : List MCPToolEntry) (conversation_id : String)
    (tool_call : ToolCallRequest) : Option (ToolExecutionRecord × ToolMessage) :=
  match parseArgs tool_call.arguments with
  | none => none
  | some tool_args =>
    let r := resolveToolName localTools mcpTools tool_call.name
    let step := execStep env r tool_call.name tool_args
    some (⟨conversation_id, r.resolved_name, serverNameOf r, tool_args,
            step.2.2, step.1, step.2.1⟩,
          ⟨"tool", tool_call.id, r.resolved_name, step.2.2, step.1⟩)

/-- Per-call outputs of one batch in request order: the tasks are created in
    request order and asyncio.gather returns results in input order. -/
def batchOutputs (env : ExecEnv) (localTools : List LocalTool)
    (mcpTools : List MCPToolEntry) (conversation_id : String)
    (requests : List ToolCallRequest) : List (Option (ToolExecutionRecord × ToolMessage)) :=
  requests.map (processToolCall env localTools mcpTools conversation_id)

/-- Records persisted by one batch: every task that got past argument parsing
    commits its record even when a sibling task raised (gather does not cancel
    the siblings). -/
def batchRecords (env : ExecEnv) (localTools : List LocalTool)
    (mcpTools : List MCPToolEntry) (conversation_id : String)
    (requests : List ToolCallRequest) : List ToolExecutionRecord :=
  (batchOutputs env localTools mcpTools conversation_id requests).filterMap
    (fun o => o.map (fun p => p.1))

/-- Collects a list of optional values, none as soon as one is none. -/
def collectSome {α : Type} : List (Option α) → Option (List α)
  | [] => some []
  | none :: _ => none
  | some a :: rest =>
    match collectSome rest with
    | some as => some (a :: as)
    | none => none

/-- The tool messages the gather returns, in request order; none when some
    call raised out of json.loads, in which case the exception propagates out
    of asyncio.gather and the turn aborts. -/
def batchMessages (env : ExecEnv) (localTools : List LocalTool)
    (mcpTools : List MCPToolEntry) (conversation_id : String)
    (requests : List ToolCallRequest) : Option (List ToolMessage) :=
  collectSome
    ((batchOutputs env localTools mcpTools conversation_id requests).map
      (fun o => o.map (fun p => p.2)))

/-! ## The correction controller -/

/-- response.choices[0].message: the assistant turn the LLM capability
    returned.  A missing tool_calls field is the empty list, exactly what the
    falsiness check in the source distinguishes. -/
structure AssistantTurn where
  content : Option String
  tool_calls : List ToolCallRequest

/-- One entry of formatted_messages: a plain role/content chat message, an
    assistant turn dumped back into the history, a tool result entry with its
    internal status popped, or the injected correction hint listing the
    failing calls' error contents. -/
inductive HistEntry where
  | chat (role : String) (content : String) : HistEntry
  | assistant (turn : AssistantTurn) : HistEntry
  | toolResult (tool_call_id : String) (name : String) (content : ToolResultContent) : HistEntry
  | correctionHint (error_details : List ToolResultContent) : HistEntry

/-- Folding one batch's results back into the history (chat_service.py lines
    188 to 196): statuses are popped and each result is appended in batch
    order. -/
def foldResults (hist : List HistEntry) (results : List ToolMessage) : List HistEntry :=
  hist ++ results.map (fun r => HistEntry.toolResult r.tool_call_id r.name r.content)

/-- Outcome of generate_response: the model turn it returns, how many
    chat_completion invocations were made, and whether a json.loads failure
    escaped the gather (aborting the turn with an exception, after which no
    further LLM call happens). -/
structure GenResult where
  final : AssistantTurn
  llmCalls : Nat
  crashed : Bool

/-- The self-correction loop of generate_response (chat_service.py lines 174
    to 210).  rounds counts the remaining for-range iterations, calls counts
    chat_completion invocations made so far.  Exits: no tool calls in the
    current turn, an error-free batch right after the follow-up call, or the
    round budget running out. -/
def correctionLoop (llm : List HistEntry → AssistantTurn) (env : ExecEnv)
    (localTools : List LocalTool) (mcpTools : List MCPToolEntry)
    (conversation_id : String) :
    Nat → List HistEntry → AssistantTurn → Nat → GenResult
  | 0, _, message, calls => ⟨message, calls, false⟩
  | rounds + 1, hist, message, calls =>
    if message.tool_calls = [] then ⟨message, calls, false⟩
    else
      let hist1 := hist ++ [HistEntry.assistant message]
      match batchMessages env localTools mcpTools conversation_id message.tool_calls with
      | none => ⟨message, calls, true⟩
      | some results =>
        let has_error := results.any (fun r => r.status == "error")
        let hist2 := foldResults hist1 results
        let hist3 :=
          if has_error then
            hist2 ++ [HistEntry.correctionHint
              ((results.filter (fun r => r.status == "error")).map (fun r => r.content))]
          else hist2
        let response := llm hist3
        if has_error then
          correctionLoop llm env localTools mcpTools conversation_id rounds hist3
            response (calls + 1)
        else ⟨response, calls + 1, false⟩

/-- The correction bound hard-coded at chat_service.py line 174. -/
def max_corrections : Nat := 2

/-- ChatService.generate_response from the initial chat_completion call
    onward (chat_service.py lines 166 to 223), over an abstract LLM
    capability and the already formatted message history; intent decoration
    and message persistence happen before and after and do not touch the
    loop. -/
def generate_response (llm : List HistEntry → AssistantTurn) (env : ExecEnv)
    (localTools : List LocalTool) (mcpTools : List MCPToolEntry)
    (conversation_id : String) (formatted_messages : List HistEntry) : GenResult :=
  correctionLoop llm env localTools mcpTools conversation_id max_corrections
    formatted_messages (llm formatted_messages) 1

/-! ## Rate and quota governor (app/middleware/rate_limit.py) -/

/-- Liveness of a counter entry: entries past their expiry read as absent. -/
def entryLive (now : Nat) (exp : Option Nat) : Bool :=
  match exp with
  | none => true
  | some t => now < t

/-- The Redis counter store: key to value and optional absolute expiry. -/
structure RedisState where
  entries : List (String × Nat × Option Nat)
  deriving DecidableEq

def RedisState.removeKey (st : RedisState) (key : String) :
    List (String × Nat × Option Nat) :=
  st.entries.filter (fun e => e.1 != key)

/-- redis GET: the live value at a key. -/
def RedisState.get (st : RedisState) (now : Nat) (key : String) : Option Nat :=
  match st.entries.find? (fun e => e.1 == key) with
  | some e => if entryLive now e.2.2 then some e.2.1 else none
  | none => none

/-- redis SET with EX: store the value with an absolute expiry. -/
def RedisState.setEx (st : RedisState) (key : String) (v : Nat)
    (expiresAt : Nat) : RedisState :=
  ⟨(key, v, some expiresAt) :: st.removeKey key⟩

/-- redis INCRBY: increments a live entry keeping its expiry; an absent or
    expired key becomes the delta with no expiry. -/
def RedisState.incrBy (st : RedisState) (now : Nat) (key : String)
    (delta : Nat) : Nat × RedisState :=
  match st.entries.find? (fun e => e.1 == key) with
  | some e =>
    if entryLive now e.2.2 then
      (e.2.1 + delta, ⟨(key, e.2.1 + delta, e.2.2) :: st.removeKey key⟩)
    else (delta, ⟨(key, delta, none) :: st.removeKey key⟩)
  | none => (delta, ⟨(key, delta, none) :: st.removeKey key⟩)

/-- redis EXPIRE at an absolute time: only live keys are touched. -/
def RedisState.expireAt (st : RedisState) (now : Nat) (key : String)
    (t : Nat) : RedisState :=
  match st.entries.find? (fun e => e.1 == key) with
  | some e =>
    if entryLive now e.2.2 then ⟨(key, e.2.1, some t) :: st.removeKey key⟩ else st
  | none => st

/-- redis TTL: remaining seconds, -1 for no expiry, -2 for absent. -/
def RedisState.ttl (st : RedisState) (now : Nat) (key : String) : Int :=
  match st.entries.find? (fun e => e.1 == key) with
  | some e =>
    match e.2.2 with
    | some t => if now < t then (t : Int) - (now : Int) else -2
    | none => -1
  | none => -2

/-- What _check_limit returns or raises: the post-increment count on
    admission, or the 429 detail payload limit, window and retry_after. -/
inductive RateDecision where
  | allowed (count : Nat) : RateDecision
  | rejected (limit : Nat) (window_seconds : Nat) (retry_after : Int) : RateDecision
  deriving DecidableEq

/-- RateLimiter._check_limit (rate_limit.py lines 103 to 148): read the
    counter; on a miss initialize it to 1 and admit without consulting the
    limit; reject when the stored count has reached the limit, carrying the
    limit, the window and the remaining ttl; otherwise increment and admit. -/
def check_limit (st : RedisState) (now : Nat) (key : String) (limit : Nat)
    (window_seconds : Nat) : RateDecision × RedisState :=
  match st.get now key with
  | none => (.allowed 1, st.setEx key 1 (now + window_seconds))
  | some count =>
    if limit ≤ count then
      (.rejected limit window_seconds (st.ttl now key), st)
    else
      let r := st.incrBy now key 1
      (.allowed r.1, r.2)

/-- Per-tier ceilings from RateLimiter.__init__ (rate_limit.py lines 25
    to 45). -/
structure TierLimits where
  requests_per_minute : Nat
  requests_per_hour : Nat
  requests_per_day : Nat
  tokens_per_day : Nat
  deriving DecidableEq

/-- The tier table; unknown tiers fall back to free, as tiers.get does. -/
def tierLimits : String → TierLimits
  | "free" => ⟨10, 100, 1000, 100000⟩
  | "pro" => ⟨60, 1000, 10000, 1000000⟩
  | "enterprise" => ⟨300, 10000, 100000, 10000000⟩
  | _ => ⟨10, 100, 1000, 100000⟩

/-- The strftime window bucket in each rate-limit key, modelled by integer
    division of the time in seconds: constant within one window period and
    distinct across periods, which is all the key derivation relies on. -/
def minuteKey (user : String) (now : Nat) : String :=
  "rate_limit:" ++ user ++ ":minute:" ++ toString (now / 60)

def hourKey (user : String) (now : Nat) : String :=
  "rate_limit:" ++ user ++ ":hour:" ++ toString (now / 3600)

def dayKey (user : String) (now : Nat) : String :=
  "rate_limit:" ++ user ++ ":day:" ++ toString (now / 86400)

def tokenDayKey (user : String) (now : Nat) : String :=
  "token_usage:" ++ user ++ ":day:" ++ toString (now / 86400)

/-- The 429 detail payload of a rate rejection. -/
structure RejectInfo where
  limit : Nat
  window_seconds : Nat
  retry_after : Int
  deriving DecidableEq

/-- The per-window counts behind the allowed response's remaining fields. -/
structure RateInfo where
  minute_count : Nat
  hour_count : Nat
  day_count : Nat
  deriving DecidableEq

/-- RateLimiter.check_rate_limit (rate_limit.py lines 47 to 101) when Redis
    is reachable: the minute, hour and day windows are checked in that order
    and the first window at its ceiling raises; windows already incremented
    before the raise stay incremented. -/
def check_rate_limit (st : RedisState) (now : Nat) (user_id : String)
    (tier : String) : Except RejectInfo RateInfo × RedisState :=
  let limits := tierLimits tier
  match check_limit st now (minuteKey user_id now) limits.requests_per_minute 60 with
  | (.rejected l w r, st1) => (.error ⟨l, w, r⟩, st1)
  | (.allowed mc, st1) =>
    match check_limit st1 now (hourKey user_id now) limits.requests_per_hour 3600 with
    | (.rejected l w r, st2) => (.error ⟨l, w, r⟩, st2)
    | (.allowed hc, st2) =>
      match check_limit st2 now (dayKey user_id now) limits.requests_per_day 86400 with
      | (.rejected l w r, st3) => (.error ⟨l, w, r⟩, st3)
      | (.allowed dc, st3) => (.ok ⟨mc, hc, dc⟩, st3)

/-- A sequence of check_rate_limit calls at the given times, threading the
    counter store; returns the decisions in order and the final store. -/
def runRequests (user : String) (tier : String) :
    List Nat → RedisState → List (Except RejectInfo RateInfo) × RedisState
  | [], st => ([], st)
  | t :: ts, st =>
    let r := check_rate_limit st t user tier
    let rest := runRequests user tier ts r.2
    (r.1 :: rest.1, rest.2)

def isAdmitted : Except RejectInfo RateInfo → Bool
  | .ok _ => true
  | .error _ => false

/-- The 429 payload of a rejected decision, none when admitted. -/
def rejectionOf : Except RejectInfo RateInfo → Option RejectInfo
  | .ok _ => none
  | .error e => some e

/-- The quota rejection detail payload. -/
structure QuotaReject where
  limit : Nat
  used : Nat
  requested : Nat
  deriving DecidableEq

/-- RateLimiter.check_token_usage (rate_limit.py lines 150 to 190) when
    Redis is reachable: read the day ledger; reject when current plus
    requested passes the tier's daily token ceiling, without touching the
    ledger; otherwise INCRBY the requested amount and refresh the day
    expiry. -/
def check_token_usage (st : RedisState) (now : Nat) (user_id : String)
    (tier : String) (tokens_requested : Nat) :
    Except QuotaReject Unit × RedisState :=
  let limits := tierLimits tier
  let key := tokenDayKey user_id now
  let current := (st.get now key).getD 0
  if limits.tokens_per_day < current + tokens_requested then
    (.error ⟨limits.tokens_per_day, current, tokens_requested⟩, st)
  else
    let r := st.incrBy now key tokens_requested
    (.ok (), r.2.expireAt now key (now + 86400))

/-! ## The MCP catalog cache (app/services/mcp_orchestrator.py) -/

/-- The shared cache entry behind the mcp_tools_cache key: the serialized
    tool list and its absolute expiry (a 300 second TTL on write). -/
def cacheLookup (cache : Option (List MCPToolEntry × Nat)) (now : Nat) :
    Option (List MCPToolEntry) :=
  match cache with
  | some c => if now < c.2 then some c.1 else none
  | none => none

/-- MCPOrchestrator.list_all_tools (mcp_orchestrator.py lines 35 to 52).
    servers lists each connected client's advertised tools in iteration
    order.  Returns the tools, the new cache entry, and whether the servers
    were actually queried; the aggregate is written to the cache only when
    Redis is reachable and the aggregate is non-empty (the truthiness test on
    all_tools at line 49). -/
def list_all_tools (redisAvailable : Bool)
    (cache : Option (List MCPToolEntry × Nat)) (now : Nat)
    (servers : List (List MCPToolEntry)) :
    List MCPToolEntry × Option (List MCPToolEntry × Nat) × Bool :=
  match (if redisAvailable then cacheLookup cache now else none) with
  | some tools => (tools, cache, false)
  | none =>
    let all_tools := servers.flatten
    if redisAvailable && !all_tools.isEmpty then
      (all_tools, some (all_tools, now + 300), true)
    else (all_tools, cache, true)

/-! ## Concrete fixtures for witnesses and counterexamples -/

/-- Two execution environments agree on the one attempt the code performs. -/
def agreeAtFirstAttempt (env env2 : ExecEnv) : Prop :=
  (∀ n a, env.localExec n a 0 = env2.localExec n a 0) ∧
  (∀ s n a, env.mcpExec s n a 0 = env2.mcpExec s n a 0)

/-- The web_search input contract: a required string query. -/
def searchSchema : JSchema := ⟨["query"], [("query", JTy.tstr)]⟩

def searchTool : LocalTool := ⟨"web_search", searchSchema⟩

/-- A schemaless local tool accepting anything. -/
def echoTool : LocalTool := ⟨"echo", ⟨[], []⟩⟩

/-- A small remote catalog advertised by one MCP server. -/
def demoMcp : List MCPToolEntry :=
  [⟨"web_search", some searchSchema, some "srv1"⟩, ⟨"read_pdf", none, some "srv1"⟩]

/-- Every capability succeeds immediately. -/
def okEnv : ExecEnv := ⟨fun _ _ _ => .ok JVal.jnull, fun _ _ _ _ => .ok JVal.jnull⟩

/-- The local capability fails transiently on attempt 0 and would succeed on
    a retry. -/
def flakyEnv : ExecEnv :=
  ⟨fun _ _ attempt => if attempt = 0 then .raised "transient failure" else .ok (JVal.jstr "ok"),
   fun _ _ _ _ => .raised "unused"⟩

/-- Same attempt-0 behaviour as flakyEnv, different on later attempts. -/
def flakyEnv2 : ExecEnv :=
  ⟨fun _ _ attempt => if attempt = 0 then .raised "transient failure" else .ok (JVal.jstr "changed"),
   fun _ _ _ _ => .raised "unused"⟩

/-- Every remote call exceeds its hard deadline. -/
def timeoutEnv : ExecEnv := ⟨fun _ _ _ => .ok JVal.jnull, fun _ _ _ _ => .timeoutRaised⟩

/-- A call whose raw argument payload is not valid JSON. -/
def badArgsCall : ToolCallRequest := ⟨"call_bad", "web_search", ArgPayload.invalid "not json"⟩

def goodCall : ToolCallRequest := ⟨"call_good", "echo", ArgPayload.valid []⟩

/-- A call to web_search missing its required query argument. -/
def c4Call : ToolCallRequest := ⟨"call_1", "web_search", ArgPayload.valid []⟩

def c4msg : String :=
  "Schema validation failed: query is a required property. Please check parameter types and required fields."

/-- The record _process_tool_call persists for c4Call. -/
def c4rec : ToolExecutionRecord :=
  ⟨"conv", "web_search", "local", [], .errorObj c4msg, "error", some c4msg⟩

def c4msgOut : ToolMessage := ⟨"tool", "call_1", "web_search", .errorObj c4msg, "error"⟩

/-- A model that always answers with one unresolvable tool call. -/
def failLLM : List HistEntry → AssistantTurn :=
  fun _ => ⟨none, [⟨"call_1", "nosuchtool", ArgPayload.valid []⟩]⟩

/-- The batch result of running goodCall against echoTool under okEnv. -/
def c8results : List ToolMessage :=
  [⟨"tool", "call_good", "echo", ToolResultContent.value JVal.jnull, "success"⟩]

/-! ## Helper lemmas -/

lemma processToolCall_isSome (env : ExecEnv) (lts : List LocalTool)
    (mts : List MCPToolEntry) (cid : String) (tc : ToolCallRequest)
    (h : (parseArgs tc.arguments).isSome = true) :
    (processToolCall env lts mts cid tc).isSome = true := by
  rcases hp : parseArgs tc.arguments with _ | args
  · rw [hp] at h; cases h
  · simp only [processToolCall, hp, Option.isSome_some]

lemma processToolCall_fields (env : ExecEnv) (lts : List LocalTool)
    (mts : List MCPToolEntry) (cid : String) (tc : ToolCallRequest)
    (rec : ToolExecutionRecord) (msg : ToolMessage)
    (h : processToolCall env lts mts cid tc = some (rec, msg)) :
    msg.tool_call_id = tc.id ∧ msg.status = rec.status ∧ msg.name = rec.tool_name := by
  rcases hp : parseArgs tc.arguments with _ | args
  · simp [processToolCall, hp] at h
  · simp only [processToolCall, hp] at h
    injection h with h1
    rw [Prod.mk.injEq] at h1
    obtain ⟨hr, hm⟩ := h1
    subst hr
    subst hm
    exact ⟨rfl, rfl, rfl⟩

lemma execStep_status (env : ExecEnv) (r : Resolution) (original : String)
    (args : ArgObj) :
    (execStep env r original args).1 = "success" ∨
      (execStep env r original args).1 = "error" := by
  unfold execStep
  rcases (schemaOf r).bind (fun s => validateSchema s args) with _ | ve
  · rcases r.localTool with _ | t
    · rcases r.mcpTool with _ | t
      · right; rfl
      · rcases env.mcpExec (serverNameOf r) r.resolved_name args 0 with v | m | _
        · left; rfl
        · right; rfl
        · right; rfl
    · rcases env.localExec r.resolved_name args 0 with v | m | _
      · left; rfl
      · right; rfl
      · right; rfl
  · right; rfl

lemma collectSome_length {α : Type} :
    ∀ (l : List (Option α)) (ys : List α), collectSome l = some ys →
      ys.length = l.length := by
  intro l
  induction l with
  | nil =>
    intro ys h
    simp only [collectSome, Option.some.injEq] at h
    subst h
    rfl
  | cons o rest ih =>
    intro ys h
    rcases o with _ | a
    · simp [collectSome] at h
    · rcases hr : collectSome rest with _ | as
      · rw [collectSome, hr] at h; cases h
      · rw [collectSome, hr] at h
        injection h with h1
        subst h1
        simp [ih as hr]

lemma collectSome_get? {α : Type} :
    ∀ (l : List (Option α)) (ys : List α), collectSome l = some ys →
      ∀ i : Nat, l.get? i = (ys.get? i).map some := by
  intro l
  induction l with
  | nil =>
    intro ys h i
    simp only [collectSome, Option.some.injEq] at h
    subst h
    rfl
  | cons o rest ih =>
    intro ys h i
    rcases o with _ | a
    · simp [collectSome] at h
    · rcases hr : collectSome rest with _ | as
      · rw [collectSome, hr] at h; cases h
      · rw [collectSome, hr] at h
        injection h with h1
        subst h1
        rcases i with _ | i
        · rfl
        · simpa using ih as hr i

lemma batchRecords_length_of_parsed (env : ExecEnv) (lts : List LocalTool)
    (mts : List MCPToolEntry) (cid : String) :
    ∀ reqs : List ToolCallRequest,
      (∀ r ∈ reqs, (parseArgs r.arguments).isSome = true) →
      (batchRecords env lts mts cid reqs).length = reqs.length := by
  intro reqs
  induction reqs with
  | nil => intro _; rfl
  | cons tc rest ih =>
    intro h
    have h1 := processToolCall_isSome env lts mts cid tc (h tc (List.mem_cons_self tc rest))
    rcases hpc : processToolCall env lts mts cid tc with _ | pr
    · rw [hpc] at h1; cases h1
    · have h2 := ih (fun x hx => h x (List.mem_cons_of_mem tc hx))
      simp only [batchRecords, batchOutputs, List.map_cons] at h2 ⊢
      rw [hpc]
      simp only [List.filterMap_cons, Option.map_some', List.length_cons, h2]

lemma localFind_mem (lts : List LocalTool) (original : String)
    (h : original ∈ lts.map (fun t => t.name)) :
    ∃ t, lts.find? (fun t => t.name == original) = some t := by
  rw [← Option.isSome_iff_exists, List.find?_isSome]
  obtain ⟨t, ht, hn⟩ := List.mem_map.1 h
  exact ⟨t, ht, by simp [hn]⟩

lemma mcpFind_mem (mts : List MCPToolEntry) (original : String)
    (h : original ∈ mts.map (fun t => t.name)) :
    ∃ t, mts.find? (fun t => t.name == original) = some t := by
  rw [← Option.isSome_iff_exists, List.find?_isSome]
  obtain ⟨t, ht, hn⟩ := List.mem_map.1 h
  exact ⟨t, ht, by simp [hn]⟩

lemma localFind_none (lts : List LocalTool) (original : String)
    (h : original ∉ lts.map (fun t => t.name)) :
    lts.find? (fun t => t.name == original) = none := by
  rw [List.find?_eq_none]
  intro t ht
  simp only [beq_iff_eq]
  intro hn
  exact h (List.mem_map.2 ⟨t, ht, hn⟩)

lemma mcpFind_none (mts : List MCPToolEntry) (original : String)
    (h : original ∉ mts.map (fun t => t.name)) :
    mts.find? (fun t => t.name == original) = none := by
  rw [List.find?_eq_none]
  intro t ht
  simp only [beq_iff_eq]
  intro hn
  exact h (List.mem_map.2 ⟨t, ht, hn⟩)

lemma find?_cons_self (key : String) (v : Nat) (exp : Option Nat)
    (rest : List (String × Nat × Option Nat)) :
    List.find? (fun e => e.1 == key) ((key, v, exp) :: rest) = some (key, v, exp) :=
  List.find?_cons_of_pos _ (by simp)

lemma get_cons_self (now : Nat) (key : String) (v : Nat) (exp : Option Nat)
    (rest : List (String × Nat × Option Nat)) :
    RedisState.get ⟨(key, v, exp) :: rest⟩ now key =
      if entryLive now exp = true then some v else none := by
  unfold RedisState.get
  rw [find?_cons_self]

lemma expireAt_cons_self (now : Nat) (key : String) (v : Nat) (exp : Option Nat)
    (t : Nat) (rest : List (String × Nat × Option Nat))
    (hl : entryLive now exp = true) :
    RedisState.expireAt ⟨(key, v, exp) :: rest⟩ now key t =
      ⟨(key, v, some t) :: (RedisState.mk ((key, v, exp) :: rest)).removeKey key⟩ := by
  unfold RedisState.expireAt
  rw [find?_cons_self]
  simp [hl]

lemma incrBy_expire_get (st : RedisState) (now : Nat) (key : String) (delta : Nat) :
    (((st.incrBy now key delta).2).expireAt now key (now + 86400)).get now key =
      some ((st.get now key).getD 0 + delta) := by
  have hnow : entryLive now (some (now + 86400)) = true := by
    simp [entryLive]
  rcases hf : st.entries.find? (fun e => e.1 == key) with _ | e
  · have hi : (st.incrBy now key delta).2 = ⟨(key, delta, none) :: st.removeKey key⟩ := by
      unfold RedisState.incrBy
      rw [hf]
    have hg : st.get now key = none := by
      unfold RedisState.get
      rw [hf]
    rw [hi, expireAt_cons_self now key delta none (now + 86400) _ rfl, hg,
      get_cons_self, hnow]
    simp
  · rcases hl : entryLive now e.2.2 with _ | _
    · have hi : (st.incrBy now key delta).2 = ⟨(key, delta, none) :: st.removeKey key⟩ := by
        unfold RedisState.incrBy
        rw [hf]
        simp [hl]
      have hg : st.get now key = none := by
        unfold RedisState.get
        rw [hf]
        simp [hl]
      rw [hi, expireAt_cons_self now key delta none (now + 86400) _ rfl, hg,
        get_cons_self, hnow]
      simp
    · have hi : (st.incrBy now key delta).2 =
          ⟨(key, e.2.1 + delta, e.2.2) :: st.removeKey key⟩ := by
        unfold RedisState.incrBy
        rw [hf]
        simp [hl]
      have hg : st.get now key = some e.2.1 := by
        unfold RedisState.get
        rw [hf]
        simp [hl]
      rw [hi, expireAt_cons_self now key (e.2.1 + delta) e.2.2 (now + 86400) _ hl, hg,
        get_cons_self, hnow]
      simp

/-! ## Claim theorems -/

/-- C2 (code bug): a tool call whose raw arguments fail json.loads is
    dispatched but persists no ToolExecutionRecord, because the parse sits
    before the try block of _process_tool_call and the exception escapes; so
    a one-request batch yields zero records, breaking the
    one-record-per-request invariant.  A batch whose arguments all parse does
    persist one record per request (third conjunct, and the general lemma
    batchRecords_length_of_parsed). -/
theorem c2_record_per_request :
    (batchRecords okEnv [searchTool] [] "conv" [badArgsCall]).length = 0 ∧
    [badArgsCall].length = 1 ∧
    (batchRecords okEnv [echoTool] [] "conv" [goodCall]).length = [goodCall].length := by
  exact ⟨rfl, rfl, rfl⟩

/-- C7: when consumed plus requested would pass the tier daily token
    ceiling, check_token_usage rejects and returns the ledger untouched; when
    it fits, the call is admitted and the ledger at the day key grows by
    exactly the requested amount. -/
theorem c7_quota (st : RedisState) (now : Nat) (u tier : String) (req : Nat) :
    ((tierLimits tier).tokens_per_day < (st.get now (tokenDayKey u now)).getD 0 + req →
      check_token_usage st now u tier req =
        (Except.error ⟨(tierLimits tier).tokens_per_day,
          (st.get now (tokenDayKey u now)).getD 0, req⟩, st)) ∧
    ((st.get now (tokenDayKey u now)).getD 0 + req ≤ (tierLimits tier).tokens_per_day →
      (check_token_usage st now u tier req).1 = Except.ok () ∧
      ((check_token_usage st now u tier req).2).get now (tokenDayKey u now) =
        some ((st.get now (tokenDayKey u now)).getD 0 + req)) := by
  constructor
  · intro h
    simp only [check_token_usage, if_pos h]
  · intro h
    have hlt : ¬ (tierLimits tier).tokens_per_day <
        (st.get now (tokenDayKey u now)).getD 0 + req := not_lt.2 h
    refine ⟨?_, ?_⟩
    · simp only [check_token_usage, if_neg hlt]
    · simp only [check_token_usage, if_neg hlt]
      exact incrBy_expire_get st now (tokenDayKey u now) req

/-- C7 witness: on the free tier with an empty ledger, requesting 200000
    tokens is rejected without charge, requesting 5 is admitted and charges
    exactly 5. -/
theorem c7_witness :
    check_token_usage ⟨[]⟩ 0 "u" "free" 200000 =
      (Except.error ⟨100000, 0, 200000⟩, ⟨[]⟩) ∧
    (check_token_usage ⟨[]⟩ 0 "u" "free" 5).1 = Except.ok () ∧
    ((check_token_usage ⟨[]⟩ 0 "u" "free" 5).2).get 0 (tokenDayKey "u" 0) = some 5 := by
  have h1 := c7_quota ⟨[]⟩ 0 "u" "free" 200000
  have h2 := c7_quota ⟨[]⟩ 0 "u" "free" 5
  exact ⟨by simpa using h1.1 (by decide), (h2.2 (by decide)).1,
    by simpa using (h2.2 (by decide)).2⟩

/-- C9: _check_limit admits the first request of a window unconditionally:
    a missing counter is initialized to 1 and the request allowed without any
    comparison against the limit, for every limit including 0. -/
theorem c9_first_request (st : RedisState) (now : Nat) (key : String)
    (limit : Nat) (window : Nat) (h : st.get now key = none) :
    check_limit st now key limit window =
      (RateDecision.allowed 1, st.setEx key 1 (now + window)) := by
  simp only [check_limit, h]

/-- C9 witness: with an empty store and a ceiling of 0 the first request is
    still admitted. -/
theorem c9_witness :
    check_limit ⟨[]⟩ 0 "rate_limit:u:minute:0" 0 60 =
      (RateDecision.allowed 1, RedisState.setEx ⟨[]⟩ "rate_limit:u:minute:0" 1 60) :=
  c9_first_request ⟨[]⟩ 0 "rate_limit:u:minute:0" 0 60 rfl

/-- C10: on a cache miss list_all_tools always queries the servers; an empty
    aggregate is returned but never written to the cache, so a later call
    still queries the servers, while a non-empty aggregate is cached with a
    300 second TTL. -/
theorem c10_empty_not_cached (cache : Option (List MCPToolEntry × Nat))
    (now : Nat) (servers : List (List MCPToolEntry))
    (hmiss : cacheLookup cache now = none) :
    (servers.flatten = [] → list_all_tools true cache now servers = ([], cache, true)) ∧
    (servers.flatten ≠ [] → list_all_tools true cache now servers =
      (servers.flatten, some (servers.flatten, now + 300), true)) ∧
    (servers.flatten = [] → ∀ (now2 : Nat) (servers2 : List (List MCPToolEntry)),
      cacheLookup cache now2 = none →
      (list_all_tools true ((list_all_tools true cache now servers).2.1)
        now2 servers2).2.2 = true) := by
  refine ⟨?_, ?_, ?_⟩
  · intro he
    simp [list_all_tools, hmiss, he]
  · intro hne
    have hf : servers.flatten.isEmpty = false := by
      rcases hfe : servers.flatten.isEmpty with _ | _
      · rfl
      · exact absurd (List.isEmpty_iff.1 hfe) hne
    simp [list_all_tools, hmiss, hf]
  · intro he now2 servers2 hmiss2
    have h1 : list_all_tools true cache now servers = ([], cache, true) := by
      simp [list_all_tools, hmiss, he]
    rw [h1]
    simp only [list_all_tools, hmiss2]
    rcases servers2.flatten.isEmpty with _ | _ <;> simp

/-- C3: resolution prefers an exact catalog match and never corrects it; with
    no exact match, a requested name whose similarity clears 0.7 against
    exactly one catalog entry resolves to that entry with the correction
    recorded; a name below 0.7 against every entry resolves to nothing and
    the call is recorded as a not-found error. -/
theorem c3_resolution (lts : List LocalTool) (mts : List MCPToolEntry)
    (original : String) :
    (original ∈ lts.map (fun t => t.name) ++ mts.map (fun t => t.name) →
      (resolveToolName lts mts original).resolved_name = original ∧
      (resolveToolName lts mts original).corrected = false) ∧
    (original ∉ lts.map (fun t => t.name) ++ mts.map (fun t => t.name) →
      ∀ c, (lts.map (fun t => t.name) ++ mts.map (fun t => t.name)).filter
          (fun x => passes x original) = [c] →
        (resolveToolName lts mts original).resolved_name = c ∧
        (resolveToolName lts mts original).corrected = true) ∧
    (original ∉ lts.map (fun t => t.name) ++ mts.map (fun t => t.name) →
      (∀ x ∈ lts.map (fun t => t.name) ++ mts.map (fun t => t.name),
        passes x original = false) →
      resolveToolName lts mts original = ⟨original, none, none, false⟩ ∧
      ∀ (env : ExecEnv) (cid idStr : String) (args : ArgObj),
        (processToolCall env lts mts cid ⟨idStr, original, ArgPayload.valid args⟩).map
            (fun p => (p.1.status, p.1.error_message)) =
          some ("error", some ("Tool " ++ original ++ " not found."))) := by
  refine ⟨?_, ?_, ?_⟩
  · intro h
    rcases List.mem_append.1 h with h1 | h1
    · obtain ⟨t, ht⟩ := localFind_mem lts original h1
      simp only [resolveToolName, ht]
      simp
    · obtain ⟨t, ht⟩ := mcpFind_mem mts original h1
      simp only [resolveToolName, ht]
      simp
  · intro hnm c hfilter
    have hl := localFind_none lts original (fun hx => hnm (List.mem_append_left _ hx))
    have hm := mcpFind_none mts original (fun hx => hnm (List.mem_append_right _ hx))
    have hfz : find_fuzzy_match original
        (lts.map (fun t => t.name) ++ mts.map (fun t => t.name)) = some c := by
      unfold find_fuzzy_match getCloseMatch1
      rw [hfilter]
      rfl
    simp only [resolveToolName, hl, hm, hfz]
    simp
  · intro hnm hall
    have hl := localFind_none lts original (fun hx => hnm (List.mem_append_left _ hx))
    have hm := mcpFind_none mts original (fun hx => hnm (List.mem_append_right _ hx))
    have hfil : (lts.map (fun t => t.name) ++ mts.map (fun t => t.name)).filter
        (fun x => passes x original) = [] := by
      rw [List.filter_eq_nil_iff]
      intro a ha
      simp [hall a ha]
    have hfz : find_fuzzy_match original
        (lts.map (fun t => t.name) ++ mts.map (fun t => t.name)) = none := by
      unfold find_fuzzy_match getCloseMatch1
      rw [hfil]
      rfl
    have hres : resolveToolName lts mts original = ⟨original, none, none, false⟩ := by
      simp only [resolveToolName, hl, hm, hfz]
      simp
    refine ⟨hres, ?_⟩
    intro env cid idStr args
    simp only [processToolCall, parseArgs, hres, execStep, schemaOf, serverNameOf]
    simp

set_option maxRecDepth 8000 in
/-- C3 witness: against the demo catalog, web_search resolves exactly without
    correction, the corrupted web_saerch resolves to web_search by the fuzzy
    fallback, and the unrelated zzz_unrelated is recorded as not found. -/
theorem c3_witness :
    (resolveToolName [] demoMcp "web_search").resolved_name = "web_search" ∧
    (resolveToolName [] demoMcp "web_search").corrected = false ∧
    (resolveToolName [] demoMcp "web_saerch").resolved_name = "web_search" ∧
    (resolveToolName [] demoMcp "web_saerch").corrected = true ∧
    (processToolCall okEnv [] demoMcp "c" ⟨"id1", "zzz_unrelated", ArgPayload.valid []⟩).map
        (fun p => (p.1.status, p.1.error_message)) =
      some ("error", some ("Tool " ++ "zzz_unrelated" ++ " not found.")) := by
  have h1 := c3_resolution [] demoMcp "web_search"
  have h2 := c3_resolution [] demoMcp "web_saerch"
  have h3 := c3_resolution [] demoMcp "zzz_unrelated"
  exact ⟨(h1.1 (by decide)).1, (h1.1 (by decide)).2,
    (h2.2.1 (by decide) "web_search" (by decide)).1,
    (h2.2.1 (by decide) "web_search" (by decide)).2,
    (h3.2.2 (by decide) (by decide)).2 okEnv "c" "id1" []⟩

/-- C4 counterexample: a schema violation is persisted with the generic
    status "error", which is outside the claimed status set, a remote call
    that exceeds its deadline is also persisted as "error", and the timeout
    kind survives only in the MCP client's metrics label. -/
theorem c4_counterexample :
    (processToolCall okEnv [searchTool] [] "conv" c4Call).map (fun p => p.1.status) =
      some "error" ∧
    "error" ∉ ["success", "validation_error", "not_found", "execution_error", "timeout"] ∧
    (processToolCall timeoutEnv [] demoMcp "conv"
        ⟨"call_t", "read_pdf", ArgPayload.valid []⟩).map (fun p => p.1.status) =
      some "error" ∧
    callToolMetricsStatus ExecOutcome.timeoutRaised = "timeout" := by
  exact ⟨rfl, by decide, rfl, rfl⟩

/-- C4 amended: every persisted ToolExecutionRecord carries a status from the
    two-element set success, error; schema violations, unresolvable names,
    execution errors and timeouts are all recorded as "error" and are told
    apart only by the error_message text and, for timeouts, the metrics
    label, not by distinct status values.  The returned message carries the
    same status. -/
theorem c4_status_set (env : ExecEnv) (lts : List LocalTool)
    (mts : List MCPToolEntry) (cid : String) (tc : ToolCallRequest)
    (rec : ToolExecutionRecord) (msg : ToolMessage)
    (h : processToolCall env lts mts cid tc = some (rec, msg)) :
    (rec.status = "success" ∨ rec.status = "error") ∧ msg.status = rec.status := by
  rcases hp : parseArgs tc.arguments with _ | args
  · simp [processToolCall, hp] at h
  · simp only [processToolCall, hp] at h
    injection h with h1
    rw [Prod.mk.injEq] at h1
    obtain ⟨hr, hm⟩ := h1
    subst hr
    subst hm
    exact ⟨execStep_status env _ tc.name args, rfl⟩

/-- C4 witness: the record persisted for the schema-violating c4Call has a
    status inside the success or error set. -/
theorem c4_witness :
    c4rec.status = "success" ∨ c4rec.status = "error" :=
  (c4_status_set okEnv [searchTool] [] "conv" c4Call c4rec c4msgOut (by decide)).1

lemma execStep_agree (env env2 : ExecEnv) (hag : agreeAtFirstAttempt env env2)
    (r : Resolution) (original : String) (args : ArgObj) :
    execStep env r original args = execStep env2 r original args := by
  unfold execStep
  rw [hag.1, hag.2]

/-- C5 counterexample: a validated call whose first execution attempt fails
    transiently, and whose second attempt would succeed, is nevertheless
    recorded as a terminal execution error: the executor never retries. -/
theorem c5_counterexample :
    flakyEnv.localExec "echo" [] 1 = ExecOutcome.ok (JVal.jstr "ok") ∧
    (processToolCall flakyEnv [echoTool] [] "conv"
        ⟨"call_2", "echo", ArgPayload.valid []⟩).map
      (fun p => (p.1.status, p.1.error_message)) =
      some ("error", some "transient failure") := by
  exact ⟨rfl, rfl⟩

/-- C5 amended: the executor makes exactly one execution attempt per call
    (attempt index 0): the outcome of the call depends only on the first
    attempt of the underlying capabilities, and a first-attempt failure is
    immediately terminal and recorded as an execution error carrying the
    raised message. -/
theorem c5_single_attempt :
    (∀ (env env2 : ExecEnv), agreeAtFirstAttempt env env2 →
      ∀ (lts : List LocalTool) (mts : List MCPToolEntry) (cid : String)
        (tc : ToolCallRequest),
        processToolCall env lts mts cid tc = processToolCall env2 lts mts cid tc) ∧
    (∀ (env : ExecEnv) (lts : List LocalTool) (mts : List MCPToolEntry)
        (cid : String) (tc : ToolCallRequest) (args : ArgObj) (t : LocalTool)
        (mo : Option MCPToolEntry) (cor : Bool) (rn : String) (m : String),
      parseArgs tc.arguments = some args →
      resolveToolName lts mts tc.name = ⟨rn, some t, mo, cor⟩ →
      validateSchema t.input_schema args = none →
      env.localExec rn args 0 = ExecOutcome.raised m →
      (processToolCall env lts mts cid tc).map (fun p => (p.1.status, p.1.error_message)) =
        some ("error", some m)) := by
  constructor
  · intro env env2 hag lts mts cid tc
    rcases hp : parseArgs tc.arguments with _ | args
    · simp [processToolCall, hp]
    · simp only [processToolCall, hp]
      rw [execStep_agree env env2 hag]
  · intro env lts mts cid tc args t mo cor rn m hp hres hval hexec
    simp only [processToolCall, hp, hres, execStep, schemaOf, serverNameOf, hval, hexec]
    simp [hval]

/-- C5 witness: two environments that agree on the single attempt the code
    makes produce identical outcomes, and a first-attempt failure is recorded
    as the terminal error. -/
theorem c5_witness :
    processToolCall flakyEnv [echoTool] [] "conv" ⟨"call_2", "echo", ArgPayload.valid []⟩ =
      processToolCall flakyEnv2 [echoTool] [] "conv" ⟨"call_2", "echo", ArgPayload.valid []⟩ ∧
    (processToolCall flakyEnv [echoTool] [] "conv"
        ⟨"call_2", "echo", ArgPayload.valid []⟩).map
      (fun p => (p.1.status, p.1.error_message)) = some ("error", some "transient failure") := by
  constructor
  · exact c5_single_attempt.1 flakyEnv flakyEnv2
      ⟨fun n a => rfl, fun s n a => rfl⟩ [echoTool] [] "conv" _
  · exact c5_single_attempt.2 flakyEnv [echoTool] [] "conv" _ [] echoTool none false
      "echo" "transient failure" rfl rfl rfl rfl

lemma batchMessages_allError (env : ExecEnv) (lts : List LocalTool)
    (mts : List MCPToolEntry) (cid : String) :
    ∀ reqs : List ToolCallRequest,
      (∀ tc ∈ reqs, ∃ rec m, processToolCall env lts mts cid tc = some (rec, m) ∧
        m.status = "error") →
      ∃ results, batchMessages env lts mts cid reqs = some results ∧
        results.length = reqs.length ∧ ∀ m ∈ results, m.status = "error" := by
  intro reqs
  induction reqs with
  | nil => intro _; exact ⟨[], rfl, rfl, by simp⟩
  | cons tc rest ih =>
    intro h
    obtain ⟨rec, m, hpc, hst⟩ := h tc (List.mem_cons_self tc rest)
    obtain ⟨results, hbm, hlen, hall⟩ := ih (fun x hx => h x (List.mem_cons_of_mem tc hx))
    have hbm' : collectSome ((List.map (processToolCall env lts mts cid) rest).map
        (fun o => o.map (fun p => p.2))) = some results := hbm
    refine ⟨m :: results, ?_, by simp [hlen], ?_⟩
    · show collectSome (((tc :: rest).map (processToolCall env lts mts cid)).map
        (fun o => o.map (fun p => p.2))) = some (m :: results)
      simp only [List.map_cons, hpc, Option.map_some']
      simp only [collectSome]
      rw [hbm']
    · intro x hx
      rcases List.mem_cons.1 hx with h1 | h1
      · subst h1; exact hst
      · exact hall x h1

lemma any_error_of_all (results : List ToolMessage) (hne : results ≠ [])
    (hall : ∀ m ∈ results, m.status = "error") :
    results.any (fun r => r.status == "error") = true := by
  rcases results with _ | ⟨m, rest⟩
  · exact absurd rfl hne
  · simp [List.any_cons, hall m (List.mem_cons_self m rest)]

lemma correctionLoop_calls_le (llm : List HistEntry → AssistantTurn) (env : ExecEnv)
    (lts : List LocalTool) (mts : List MCPToolEntry) (cid : String) :
    ∀ (n : Nat) (hist : List HistEntry) (message : AssistantTurn) (calls : Nat),
      (correctionLoop llm env lts mts cid n hist message calls).llmCalls ≤ calls + n := by
  intro n
  induction n with
  | zero =>
    intro hist message calls
    simp [correctionLoop]
  | succ n ih =>
    intro hist message calls
    simp only [correctionLoop]
    split
    · exact Nat.le_add_right calls (n + 1)
    · split
      · exact Nat.le_add_right calls (n + 1)
      · split
        · exact le_trans (ih _ _ (calls + 1)) (by omega)
        · exact Nat.add_le_add_left (Nat.succ_le_succ (Nat.zero_le n)) calls

lemma correctionLoop_allfail (llm : List HistEntry → AssistantTurn) (env : ExecEnv)
    (lts : List LocalTool) (mts : List MCPToolEntry) (cid : String)
    (hfail : ∀ h : List HistEntry, (llm h).tool_calls ≠ [] ∧
      ∀ tc ∈ (llm h).tool_calls, ∃ rec m,
        processToolCall env lts mts cid tc = some (rec, m) ∧ m.status = "error") :
    ∀ (n : Nat) (hist : List HistEntry) (calls : Nat) (h0 : List HistEntry),
      (correctionLoop llm env lts mts cid n hist (llm h0) calls).llmCalls = calls + n ∧
      (correctionLoop llm env lts mts cid n hist (llm h0) calls).final.tool_calls ≠ [] := by
  intro n
  induction n with
  | zero =>
    intro hist calls h0
    exact ⟨rfl, (hfail h0).1⟩
  | succ n ih =>
    intro hist calls h0
    obtain ⟨results, hbm, hlen, hall⟩ :=
      batchMessages_allError env lts mts cid (llm h0).tool_calls (hfail h0).2
    have hne : results ≠ [] := by
      intro hcon
      apply (hfail h0).1
      rw [← List.length_eq_zero, ← hlen, hcon]
      rfl
    have hany := any_error_of_all results hne hall
    simp only [correctionLoop, if_neg (hfail h0).1, hbm, hany, eq_self_iff_true, if_true]
    refine ⟨?_, (ih _ _ _).2⟩
    rw [(ih _ _ _).1]
    omega

/-- C1: with the hard-coded correction bound 2, generate_response invokes the
    LLM capability at most 3 times for every model, environment and history;
    when every round's tool calls fail, it makes exactly 3 calls (1 initial
    plus 2 corrections) and returns the model's last turn, unresolved tool
    calls included, instead of iterating further. -/
theorem c1_correction_round_bound (llm : List HistEntry → AssistantTurn)
    (env : ExecEnv) (lts : List LocalTool) (mts : List MCPToolEntry)
    (cid : String) (hist : List HistEntry)
    (hfail : ∀ h : List HistEntry, (llm h).tool_calls ≠ [] ∧
      ∀ tc ∈ (llm h).tool_calls, ∃ rec m,
        processToolCall env lts mts cid tc = some (rec, m) ∧ m.status = "error") :
    (generate_response llm env lts mts cid hist).llmCalls = 3 ∧
    (generate_response llm env lts mts cid hist).final.tool_calls ≠ [] ∧
    ∀ (llm2 : List HistEntry → AssistantTurn) (env2 : ExecEnv)
      (lts2 : List LocalTool) (mts2 : List MCPToolEntry) (cid2 : String)
      (hist2 : List HistEntry),
      (generate_response llm2 env2 lts2 mts2 cid2 hist2).llmCalls ≤ 3 := by
  have hall := correctionLoop_allfail llm env lts mts cid hfail max_corrections hist 1 hist
  refine ⟨?_, ?_, ?_⟩
  · have h1 := hall.1
    simpa [generate_response, max_corrections] using h1
  · have h2 := hall.2
    simpa [generate_response, max_corrections] using h2
  · intro llm2 env2 lts2 mts2 cid2 hist2
    have hb := correctionLoop_calls_le llm2 env2 lts2 mts2 cid2 max_corrections
      hist2 (llm2 hist2) 1
    simpa [generate_response, max_corrections] using hb

/-- C1 witness: a model that always emits one unresolvable tool call drives
    exactly 3 LLM invocations under the bound of 2 correction rounds. -/
theorem c1_witness :
    (generate_response failLLM okEnv [] [] "c" []).llmCalls = 3 := by
  refine (c1_correction_round_bound failLLM okEnv [] [] "c" [] ?_).1
  intro h
  constructor
  · simp [failLLM]
  · intro tc htc
    simp only [failLLM, List.mem_singleton] at htc
    subst htc
    exact ⟨_, _, rfl, rfl⟩

/-- C6: on the free tier (minute ceiling 10) the first 10 requests inside one
    minute window are admitted, the 11th request in the same window is
    rejected carrying the ceiling 10, the 60 second window and the remaining
    50 seconds to reset, and the first request of the next minute window is
    admitted again. -/
theorem c6_free_minute_ceiling :
    (tierLimits "free").requests_per_minute = 10 ∧
    ((runRequests "u" "free" (List.range 11) ⟨[]⟩).1.take 10).all isAdmitted = true ∧
    ((runRequests "u" "free" (List.range 11) ⟨[]⟩).1.map rejectionOf).get? 10 =
      some (some ⟨10, 60, 50⟩) ∧
    isAdmitted (check_rate_limit (runRequests "u" "free" (List.range 11) ⟨[]⟩).2
      60 "u" "free").1 = true := by
  exact ⟨rfl, by decide, by decide, by decide⟩

/-- C8: the tool messages of one batch align with its requests: as many
    results as requests, the i-th result carries the call id of the i-th
    request, and folding the batch into the history appends the i-th result
    at offset i past the existing entries, so the transcript preserves the
    original request order rather than completion order. -/
theorem c8_order (env : ExecEnv) (lts : List LocalTool) (mts : List MCPToolEntry)
    (cid : String) (reqs : List ToolCallRequest) (results : List ToolMessage)
    (h : batchMessages env lts mts cid reqs = some results) :
    results.length = reqs.length ∧
    (∀ (i : Nat) (tc : ToolCallRequest) (m : ToolMessage),
      reqs.get? i = some tc → results.get? i = some m → m.tool_call_id = tc.id) ∧
    (∀ (hist : List HistEntry) (i : Nat) (m : ToolMessage), results.get? i = some m →
      (foldResults hist results).get? (hist.length + i) =
        some (HistEntry.toolResult m.tool_call_id m.name m.content)) := by
  have h' : collectSome ((batchOutputs env lts mts cid reqs).map
      (fun o => o.map (fun p => p.2))) = some results := h
  refine ⟨?_, ?_, ?_⟩
  · have h1 := collectSome_length _ _ h'
    simpa [batchOutputs] using h1
  · intro i tc m hreq hres
    have h2 := collectSome_get? _ _ h' i
    rw [hres] at h2
    simp only [batchOutputs, List.get?_map, hreq, Option.map_some'] at h2
    injection h2 with h3
    obtain ⟨pr, hpc, hsnd⟩ := Option.map_eq_some'.1 h3
    have hpc2 : processToolCall env lts mts cid tc = some (pr.1, m) := by
      rw [hpc, ← hsnd]
    exact (processToolCall_fields env lts mts cid tc pr.1 m hpc2).1
  · intro hist i m hres
    unfold foldResults
    rw [List.get?_append_right (Nat.le_add_right _ _), Nat.add_sub_cancel_left,
      List.get?_map, hres, Option.map_some']

/-- C8 witness: a singleton batch aligns with its request and its result is
    folded in right after the existing history. -/
theorem c8_witness :
    c8results.length = [goodCall].length ∧
    (foldResults [] c8results).get? 0 =
      some (HistEntry.toolResult "call_good" "echo" (ToolResultContent.value JVal.jnull)) := by
  have h := c8_order okEnv [echoTool] [] "c" [goodCall] c8results (by decide)
  refine ⟨h.1, ?_⟩
  have h2 := h.2.2 [] 0
    ⟨"tool", "call_good", "echo", ToolResultContent.value JVal.jnull, "success"⟩ (by decide)
  simpa using h2

/-- C10 witness: an empty aggregate is not cached, a non-empty one is. -/
theorem c10_witness :
    list_all_tools true none 0 [[]] = ([], none, true) ∧
    list_all_tools true none 0 [[⟨"t1", none, some "s1"⟩]] =
      ([⟨"t1", none, some "s1"⟩], some ([⟨"t1", none, some "s1"⟩], 300), true) := by
  have h1 := c10_empty_not_cached none 0 [[]] rfl
  have h2 := c10_empty_not_cached none 0 [[⟨"t1", none, some "s1"⟩]] rfl
  exact ⟨h1.1 rfl, by simpa using h2.2.1 (by decide)⟩

end ChatBot
